import Mathlib

/-!
Verification of the normalization, validation and deterministic-identity
pipeline of the WordPress module generator (src/generator.py).

The Python source is shallowly embedded: strings are Lean `String`s,
`bytes` are `List Nat` (each entry < 256), dictionaries appearing in the
generated schema are association lists over an explicit JSON value type,
and 32-bit machine arithmetic is `Nat` arithmetic taken modulo 2 ^ 32.
The standard-library calls the source makes (`hashlib.md5`, `str.encode`,
`str.lower`, `str.title`, `str.replace`, `re.sub`, `str.strip`) are
embedded by faithful Lean implementations of those library functions,
restricted where noted to the character ranges this program exercises.
-/

namespace WpGen

/-! ## MD5 (embedding of `hashlib.md5(...).hexdigest()`)

A direct implementation of RFC 1321 over `Nat`, processing a `List Nat`
of message bytes.  `md5HexChars` is the lowercase hexadecimal digest the
source truncates to build its keys. -/

def M32 : Nat := 4294967296

def rotl32 (x c : Nat) : Nat :=
  (((x % M32) <<< c) ||| ((x % M32) >>> (32 - c))) % M32

/-- The 64 round constants of RFC 1321 (floor(abs(sin(i + 1)) * 2 ^ 32)). -/
def md5K : List Nat :=
  [0xd76aa478, 0xe8c7b756, 0x242070db, 0xc1bdceee,
   0xf57c0faf, 0x4787c62a, 0xa8304613, 0xfd469501,
   0x698098d8, 0x8b44f7af, 0xffff5bb1, 0x895cd7be,
   0x6b901122, 0xfd987193, 0xa679438e, 0x49b40821,
   0xf61e2562, 0xc040b340, 0x265e5a51, 0xe9b6c7aa,
   0xd62f105d, 0x02441453, 0xd8a1e681, 0xe7d3fbc8,
   0x21e1cde6, 0xc33707d6, 0xf4d50d87, 0x455a14ed,
   0xa9e3e905, 0xfcefa3f8, 0x676f02d9, 0x8d2a4c8a,
   0xfffa3942, 0x8771f681, 0x6d9d6122, 0xfde5380c,
   0xa4beea44, 0x4bdecfa9, 0xf6bb4b60, 0xbebfbc70,
   0x289b7ec6, 0xeaa127fa, 0xd4ef3085, 0x04881d05,
   0xd9d4d039, 0xe6db99e5, 0x1fa27cf8, 0xc4ac5665,
   0xf4292244, 0x432aff97, 0xab9423a7, 0xfc93a039,
   0x655b59c3, 0x8f0ccc92, 0xffeff47d, 0x85845dd1,
   0x6fa87e4f, 0xfe2ce6e0, 0xa3014314, 0x4e0811a1,
   0xf7537e82, 0xbd3af235, 0x2ad7d2bb, 0xeb86d391]

/-- The per-round left-rotation amounts of RFC 1321. -/
def md5S : List Nat :=
  [7, 12, 17, 22, 7, 12, 17, 22, 7, 12, 17, 22, 7, 12, 17, 22,
   5, 9, 14, 20, 5, 9, 14, 20, 5, 9, 14, 20, 5, 9, 14, 20,
   4, 11, 16, 23, 4, 11, 16, 23, 4, 11, 16, 23, 4, 11, 16, 23,
   6, 10, 15, 21, 6, 10, 15, 21, 6, 10, 15, 21, 6, 10, 15, 21]

/-- The round-dependent mixing function of RFC 1321. -/
def md5F (i b c d : Nat) : Nat :=
  if i < 16 then (b &&& c) ||| ((4294967295 ^^^ b) &&& d)
  else if i < 32 then (d &&& b) ||| ((4294967295 ^^^ d) &&& c)
  else if i < 48 then b ^^^ c ^^^ d
  else c ^^^ (b ||| (4294967295 ^^^ d))

/-- The round-dependent message-word index of RFC 1321. -/
def md5G (i : Nat) : Nat :=
  if i < 16 then i
  else if i < 32 then (5 * i + 1) % 16
  else if i < 48 then (3 * i + 5) % 16
  else (7 * i) % 16

/-- Little-endian 32-bit word `j` of a 64-byte chunk. -/
def md5Word (chunk : List Nat) (j : Nat) : Nat :=
  chunk.getD (4 * j) 0 + chunk.getD (4 * j + 1) 0 * 256 +
    chunk.getD (4 * j + 2) 0 * 65536 + chunk.getD (4 * j + 3) 0 * 16777216

/-- One of the 64 rounds of the MD5 compression function. -/
def md5Step (chunk : List Nat) (st : Nat × Nat × Nat × Nat) (i : Nat) :
    Nat × Nat × Nat × Nat :=
  let a := st.1
  let b := st.2.1
  let c := st.2.2.1
  let d := st.2.2.2
  let f := (md5F i b c d + a + md5K.getD i 0 + md5Word chunk (md5G i)) % M32
  (d, (b + rotl32 f (md5S.getD i 0)) % M32, b, c)

/-- The MD5 compression function: absorb one 64-byte chunk into the state. -/
def md5Chunk (st : Nat × Nat × Nat × Nat) (chunk : List Nat) :
    Nat × Nat × Nat × Nat :=
  let r := (List.range 64).foldl (md5Step chunk) st
  ((st.1 + r.1) % M32, (st.2.1 + r.2.1) % M32,
   (st.2.2.1 + r.2.2.1) % M32, (st.2.2.2 + r.2.2.2) % M32)

/-- Split a byte list into successive 64-byte chunks (structural recursion
on a fuel bounded by the list length, so the kernel can evaluate it). -/
def chunkifyAux : Nat → List Nat → List (List Nat)
  | 0, _ => []
  | _, [] => []
  | fuel + 1, a :: rest => (a :: rest).take 64 :: chunkifyAux fuel ((a :: rest).drop 64)

/-- Split a byte list into successive 64-byte chunks. -/
def chunkify (l : List Nat) : List (List Nat) :=
  chunkifyAux l.length l

/-- MD5 padding: append 0x80, zero bytes to 56 mod 64, then the bit length
as a little-endian 64-bit quantity. -/
def md5Pad (msg : List Nat) : List Nat :=
  let len := msg.length
  let padLen := (120 - ((len + 1) % 64)) % 64
  msg ++ [128] ++ List.replicate padLen 0 ++
    (List.range 8).map (fun i => ((len * 8) >>> (8 * i)) % 256)

/-- Serialize a 32-bit word to four little-endian bytes. -/
def wordLE (w : Nat) : List Nat :=
  [w % 256, (w >>> 8) % 256, (w >>> 16) % 256, (w >>> 24) % 256]

/-- The 16-byte MD5 digest of a byte list. -/
def md5Bytes (msg : List Nat) : List Nat :=
  let r := (chunkify (md5Pad msg)).foldl md5Chunk
    (0x67452301, 0xefcdab89, 0x98badcfe, 0x10325476)
  wordLE r.1 ++ wordLE r.2.1 ++ wordLE r.2.2.1 ++ wordLE r.2.2.2

/-- The lowercase hexadecimal digit for a value below 16. -/
def hexDigitChar (n : Nat) : Char :=
  if n < 10 then Char.ofNat (48 + n) else Char.ofNat (87 + n)

/-- The two lowercase hexadecimal digits of one byte. -/
def byteHex (b : Nat) : List Char :=
  [hexDigitChar ((b / 16) % 16), hexDigitChar (b % 16)]

/-- The 32 characters of `hashlib.md5(msg).hexdigest()`. -/
def md5HexChars (msg : List Nat) : List Char :=
  ((md5Bytes msg).map byteHex).flatten

/-- UTF-8 encoding of one code point (embedding of what `str.encode` does
per character). -/
def utf8Bytes (c : Char) : List Nat :=
  let n := c.toNat
  if n < 128 then [n]
  else if n < 2048 then [192 ||| (n >>> 6), 128 ||| (n &&& 63)]
  else if n < 65536 then
    [224 ||| (n >>> 12), 128 ||| ((n >>> 6) &&& 63), 128 ||| (n &&& 63)]
  else
    [240 ||| (n >>> 18), 128 ||| ((n >>> 12) &&& 63),
     128 ||| ((n >>> 6) &&& 63), 128 ||| (n &&& 63)]

/-- Embedding of Python `str.encode()` (UTF-8). -/
def encodeStr (s : String) : List Nat :=
  (s.data.map utf8Bytes).flatten

/-- The composite `hashlib.md5(s.encode()).hexdigest()[:8]` both key
generators apply to their identity string. -/
def md5Trunc8 (s : String) : String :=
  String.mk ((md5HexChars (encodeStr s)).take 8)

/-! ## Deterministic key generators (src/generator.py lines 80-92) -/

/-- Embedding of `generate_field_key`: hash of the module name and field
name joined by an underscore, truncated to 8 hex characters, with the
literal prefix. -/
def generate_field_key (module_name field_name : String) : String :=
  "field_" ++ md5Trunc8 (module_name ++ "_" ++ field_name)

/-- Embedding of `generate_group_key`: hash of the module name alone,
truncated to 8 hex characters, with the literal prefix. -/
def generate_group_key (module_name : String) : String :=
  "group_" ++ md5Trunc8 module_name

/-! ## Normalizer (src/generator.py lines 36-58)

`lower1`, `upper1`, `isCasedChar` embed Python `str.lower` / `str.upper` /
casedness restricted to the Basic Latin and Latin-1 letters this program's
accent-folding operates on; on every character outside those ranges the
Python functions may differ, but any such character lies outside
`[a-z0-9]` both before and after lowercasing, so `slugify` and
`to_snake_case` are unaffected. -/

/-- Embedding of Python `str.lower`, per character, on the Basic Latin and
Latin-1 ranges (A-Z and the accented uppercase letters map down by 32). -/
def lower1 (c : Char) : Char :=
  if 65 ≤ c.toNat ∧ c.toNat ≤ 90 then Char.ofNat (c.toNat + 32)
  else if 192 ≤ c.toNat ∧ c.toNat ≤ 222 ∧ c.toNat ≠ 215 then Char.ofNat (c.toNat + 32)
  else c

/-- The accent-folding of the six `re.sub` character classes in `slugify`. -/
def foldAccent (c : Char) : Char :=
  if c ∈ [ 'à', 'á', 'â', 'ã', 'ä', 'å' ] then 'a'
  else if c ∈ [ 'è', 'é', 'ê', 'ë' ] then 'e'
  else if c ∈ [ 'ì', 'í', 'î', 'ï' ] then 'i'
  else if c ∈ [ 'ò', 'ó', 'ô', 'õ', 'ö' ] then 'o'
  else if c ∈ [ 'ù', 'ú', 'û', 'ü' ] then 'u'
  else if c = 'ç' then 'c'
  else c

/-- Membership in the character class `[a-z0-9]`. -/
def isSlugChar (c : Char) : Bool :=
  (97 ≤ c.toNat && c.toNat ≤ 122) || (48 ≤ c.toNat && c.toNat ≤ 57)

/-- Embedding of the regex substitution that replaces every run of
characters outside `[a-z0-9]` with a single hyphen.  The boolean records
whether the scan is inside such a run. -/
def collapseGo : List Char → Bool → List Char
  | [], _ => []
  | c :: rest, inRun =>
    if isSlugChar c then c :: collapseGo rest false
    else if inRun then collapseGo rest true
    else '-' :: collapseGo rest true

/-- Embedding of Python `str.strip` with a single strip character. -/
def pyStrip (c : Char) (l : List Char) : List Char :=
  ((l.dropWhile (fun x => x = c)).reverse.dropWhile (fun x => x = c)).reverse

/-- Embedding of `slugify`: lowercase, fold the listed accented Latin
characters, collapse every run outside `[a-z0-9]` to one hyphen, strip
leading and trailing hyphens. -/
def slugify (text : String) : String :=
  String.mk (pyStrip '-' (collapseGo ((text.data.map lower1).map foldAccent) false))

/-- Embedding of Python `str.replace` for single-character patterns. -/
def pyReplaceChar (a b : Char) (s : String) : String :=
  String.mk (s.data.map (fun c => if c = a then b else c))

/-- Embedding of `to_snake_case`: `slugify` with hyphens replaced by
underscores. -/
def to_snake_case (text : String) : String :=
  pyReplaceChar '-' '_' (slugify text)

/-- Whether Python treats the character as cased, on the Basic Latin and
Latin-1 ranges this program exercises. -/
def isCasedChar (c : Char) : Bool :=
  (97 ≤ c.toNat && c.toNat ≤ 122) || (65 ≤ c.toNat && c.toNat ≤ 90) ||
    (192 ≤ c.toNat && c.toNat ≤ 255 && c.toNat != 215 && c.toNat != 247)

/-- Embedding of Python `str.upper`, per character, on the Basic Latin and
Latin-1 ranges (ÿ maps to Ÿ, U+0178; ß is left unchanged as in `str.title`). -/
def upper1 (c : Char) : Char :=
  if 97 ≤ c.toNat ∧ c.toNat ≤ 122 then Char.ofNat (c.toNat - 32)
  else if 224 ≤ c.toNat ∧ c.toNat ≤ 254 ∧ c.toNat ≠ 247 then Char.ofNat (c.toNat - 32)
  else if c.toNat = 255 then Char.ofNat 376
  else c

/-- The scan of Python `str.title`: a cased character is uppercased after
an uncased one and lowercased after a cased one; the boolean records
whether the previous character was cased. -/
def titleGo : List Char → Bool → List Char
  | [], _ => []
  | c :: rest, prevCased =>
    (if prevCased then lower1 c else if isCasedChar c then upper1 c else c) ::
      titleGo rest (isCasedChar c)

/-- Embedding of Python `str.title` on the modelled character ranges. -/
def pyTitle (s : String) : String :=
  String.mk (titleGo s.data false)

/-- Embedding of `to_label`: replace hyphens and underscores by spaces,
then title-case. -/
def to_label (text : String) : String :=
  pyTitle (pyReplaceChar '_' ' ' (pyReplaceChar '-' ' ' text))

/-! ## Field Type Registry and data model (src/generator.py lines 18-33) -/

/-- A JSON-like value: the type of the entries of the generated schema
document.  Python dictionaries are embedded as association lists in
insertion order. -/
inductive JVal where
  | s (v : String)
  | n (v : Int)
  | b (v : Bool)
  | arr (vs : List JVal)
  | obj (fields : List (String × JVal))

/-- Embedding of the `SUPPORTED_TYPES` dictionary, in source order. -/
def SUPPORTED_TYPES : List (String × List (String × JVal)) :=
  [ ("text", [ ("type", .s "text"), ("label", .s "Texte") ]),
    ("textarea", [ ("type", .s "textarea"), ("label", .s "Zone de texte") ]),
    ("image", [ ("type", .s "image"), ("label", .s "Image"),
                ("return_format", .s "array"), ("preview_size", .s "medium") ]),
    ("number", [ ("type", .s "number"), ("label", .s "Nombre") ]),
    ("wysiwyg", [ ("type", .s "wysiwyg"), ("label", .s "Éditeur WYSIWYG"),
                  ("tabs", .s "all"), ("toolbar", .s "full") ]),
    ("select", [ ("type", .s "select"), ("label", .s "Liste déroulante"),
                 ("choices", .obj [ ("option1", .s "Option 1"),
                                    ("option2", .s "Option 2") ]) ]),
    ("date", [ ("type", .s "date_picker"), ("label", .s "Date"),
               ("display_format", .s "d/m/Y"), ("return_format", .s "Y-m-d") ]) ]

/-- The keys of the registry, in insertion order (Python `dict` iteration
order). -/
def supportedTypeKeys : List String :=
  SUPPORTED_TYPES.map Prod.fst

/-- Embedding of the `Field` NamedTuple. -/
structure Field where
  name : String
  field_type : String
  label : String
deriving DecidableEq

/-! ## Field Parser (src/generator.py lines 61-77) -/

/-- The part of the raw token before the first colon (Python
`field_str.split(chr(58), 1)[0]`). -/
def rawName (s : String) : String :=
  String.mk (s.data.takeWhile (fun c => c ≠ ':'))

/-- The part of the raw token after the first colon (Python
`field_str.split(chr(58), 1)[1]`, defined when the token contains a colon). -/
def rawType (s : String) : String :=
  String.mk ((s.data.dropWhile (fun c => c ≠ ':')).tail)

/-- The message of the missing-separator `click.BadParameter` error. -/
def malformedMsg (s : String) : String :=
  "Format invalide: " ++ s ++ ". Utilisez 'nom:type'"

/-- The message of the unsupported-type `click.BadParameter` error: it
joins every key of the registry, in registry order. -/
def unsupportedMsg (t : String) : String :=
  "Type '" ++ t ++ "' non supporté. Types valides: " ++
    String.intercalate ", " supportedTypeKeys

/-- Embedding of `parse_field`; a raised `click.BadParameter` becomes an
`Except.error` carrying the message. -/
def parse_field (field_str : String) : Except String Field :=
  if ':' ∉ field_str.data then
    .error (malformedMsg field_str)
  else if rawType field_str ∉ supportedTypeKeys then
    .error (unsupportedMsg (rawType field_str))
  else
    .ok { name := to_snake_case (rawName field_str),
          field_type := rawType field_str,
          label := to_label (rawName field_str) }

/-! ## Schema Builder (src/generator.py lines 95-150) -/

/-- Dictionary lookup in the registry; the source indexes
`SUPPORTED_TYPES[field.field_type]`, which is defined exactly when the
field type is a registry key, so the default branch is never taken for
fields produced by `parse_field`. -/
def lookupConfig (t : String) : List (String × JVal) :=
  (SUPPORTED_TYPES.lookup t).getD []

/-- Embedding of `dict.pop`: drop the entry with the given key. -/
def removeKey (k : String) (l : List (String × JVal)) : List (String × JVal) :=
  l.filter (fun p => p.1 != k)

/-- The extra per-type attributes of a registry entry: its configuration
with the bookkeeping `type` and `label` entries popped. -/
def acfExtraKeys (t : String) : List String :=
  (removeKey "label" (removeKey "type" (lookupConfig t))).map Prod.fst

/-- Embedding of `build_acf_field`.  The `order` parameter mirrors the
source's (unused) third parameter. -/
def build_acf_field (field : Field) (module_name : String) (_order : Nat) : JVal :=
  let type_config := lookupConfig field.field_type
  let ft := (type_config.lookup "type").getD (.s "")
  let extras := removeKey "label" (removeKey "type" type_config)
  .obj ([ ("key", .s (generate_field_key module_name field.name)),
          ("label", .s field.label),
          ("name", .s field.name),
          ("type", ft),
          ("instructions", .s ""),
          ("required", .n 0),
          ("conditional_logic", .n 0),
          ("wrapper", .obj [ ("width", .s ""), ("class", .s ""), ("id", .s "") ]) ]
        ++ extras)

/-- Embedding of `build_acf_json`.  The call
`int(datetime.now().timestamp())` is the one read of ambient state in the
source; it is passed in as the explicit parameter `now`. -/
def build_acf_json (module_name slug : String) (fields : List Field) (now : Int) : JVal :=
  let acf_fields := fields.enum.map (fun p => build_acf_field p.2 module_name p.1)
  .obj [ ("key", .s (generate_group_key module_name)),
         ("title", .s ("Champs " ++ module_name)),
         ("fields", .arr acf_fields),
         ("location", .arr [ .arr [ .obj [ ("param", .s "post_type"),
                                           ("operator", .s "=="),
                                           ("value", .s slug) ] ] ]),
         ("menu_order", .n 0),
         ("position", .s "normal"),
         ("style", .s "default"),
         ("label_placement", .s "top"),
         ("instruction_placement", .s "label"),
         ("hide_on_screen", .s ""),
         ("active", .b true),
         ("description", .s ("Groupe de champs pour le module " ++ module_name)),
         ("show_in_rest", .n 1),
         ("modified", .n now) ]

/-- The keys of an object value, in insertion order. -/
def objEntries : JVal → List (String × JVal)
  | .obj l => l
  | _ => []

/-- The keys of an object value, in insertion order. -/
def objKeys (j : JVal) : List String :=
  (objEntries j).map Prod.fst

/-- The items of an array value. -/
def arrItems : JVal → List JVal
  | .arr l => l
  | _ => []

/-- The per-field keys every rendered entry carries, in source order. -/
def baseFieldKeys : List String :=
  [ "key", "label", "name", "type", "instructions", "required",
    "conditional_logic", "wrapper" ]

/-! ## Process state (for the determinism claims)

The ambient state a Python process could draw nondeterminism from: the
clock, the random seed, process-specific identifiers.  The body of
`generate_field_key` / `generate_group_key` reads none of them (contrast
`build_acf_json`, which reads the clock for its `modified` entry), so
their state-passing forms ignore this record. -/

structure ProcessState where
  clock : Int
  randomSeed : Nat
  processId : Nat

/-- State-passing form of `generate_field_key`: the source body reads no
timestamp, random seed or process-specific state. -/
def generate_field_key_run (_st : ProcessState) (module_name field_name : String) : String :=
  generate_field_key module_name field_name

/-- State-passing form of `generate_group_key`: the source body reads no
timestamp, random seed or process-specific state. -/
def generate_group_key_run (_st : ProcessState) (module_name : String) : String :=
  generate_group_key module_name

/-! ## Derived predicates used by the statements -/

/-- Membership in `[0-9a-f]`: a lowercase hexadecimal digit. -/
def isLowerHexChar (c : Char) : Bool :=
  (48 ≤ c.toNat && c.toNat ≤ 57) || (97 ≤ c.toNat && c.toNat ≤ 102)

/-- Membership in `[a-z0-9_]`. -/
def isSnakeChar (c : Char) : Bool :=
  isSlugChar c || c == '_'

/-! ## Lemmas about the hexadecimal digest -/

lemma hexDigitChar_hex : ∀ n < 16, isLowerHexChar (hexDigitChar n) = true := by
  decide

lemma md5Bytes_lt (msg : List Nat) : ∀ b ∈ md5Bytes msg, b < 256 := by
  intro b hb
  simp only [md5Bytes, wordLE, List.mem_append, List.mem_cons, List.not_mem_nil, or_false] at hb
  rcases hb with h | h | h | h | h | h | h | h | h | h | h | h | h | h | h | h <;> omega

lemma flatten_byteHex_length (l : List Nat) :
    ((l.map byteHex).flatten).length = 2 * l.length := by
  induction l with
  | nil => simp
  | cons a t ih => simp [byteHex, ih]; ring

lemma md5Bytes_length (msg : List Nat) : (md5Bytes msg).length = 16 := by
  simp [md5Bytes, wordLE]

lemma md5HexChars_length (msg : List Nat) : (md5HexChars msg).length = 32 := by
  rw [md5HexChars, flatten_byteHex_length, md5Bytes_length]

lemma md5HexChars_hex (msg : List Nat) :
    ∀ c ∈ md5HexChars msg, isLowerHexChar c = true := by
  intro c hc
  rw [md5HexChars, List.mem_flatten] at hc
  obtain ⟨sub, hsub, hcsub⟩ := hc
  rw [List.mem_map] at hsub
  obtain ⟨b, hb, rfl⟩ := hsub
  have hb256 : b < 256 := md5Bytes_lt msg b hb
  simp only [byteHex, List.mem_cons, List.not_mem_nil, or_false] at hcsub
  rcases hcsub with rfl | rfl
  · exact hexDigitChar_hex _ (Nat.mod_lt _ (by norm_num))
  · exact hexDigitChar_hex _ (Nat.mod_lt _ (by norm_num))

lemma md5Trunc8_length (s : String) : (md5Trunc8 s).length = 8 := by
  show ((md5HexChars (encodeStr s)).take 8).length = 8
  rw [List.length_take, md5HexChars_length]
  decide

lemma md5Trunc8_hex (s : String) : (md5Trunc8 s).data.all isLowerHexChar = true := by
  rw [List.all_eq_true]
  intro c hc
  exact md5HexChars_hex _ c (List.mem_of_mem_take hc)

/-! ## Claim theorems (identity generation) -/

/-- C1: the key generators are pure deterministic maps: in state-passing
form, two calls with the same module and field identities return
bit-identical strings whatever the ambient process state (clock, random
seed, process id) of either run is; no such state influences the output. -/
theorem claim_C1_key_determinism :
    ∀ (st1 st2 : ProcessState) (module_name field_name : String),
      generate_field_key_run st1 module_name field_name =
        generate_field_key_run st2 module_name field_name ∧
      generate_group_key_run st1 module_name = generate_group_key_run st2 module_name :=
  fun _ _ _ _ => ⟨rfl, rfl⟩

/-- C2: `generate_field_key` returns the literal prefix `field_` followed
by exactly 8 lowercase hexadecimal characters, the truncation to 8
characters of the MD5 hex digest of the module and field identities joined
by an underscore; `generate_group_key` likewise returns `group_` followed
by 8 lowercase hexadecimal characters of the digest of the module identity
alone. -/
theorem claim_C2_key_shape : ∀ module_name field_name : String,
    generate_field_key module_name field_name =
      "field_" ++ md5Trunc8 (module_name ++ "_" ++ field_name) ∧
    md5Trunc8 (module_name ++ "_" ++ field_name) =
      String.mk ((md5HexChars (encodeStr (module_name ++ "_" ++ field_name))).take 8) ∧
    (md5Trunc8 (module_name ++ "_" ++ field_name)).length = 8 ∧
    (md5Trunc8 (module_name ++ "_" ++ field_name)).data.all isLowerHexChar = true ∧
    generate_group_key module_name = "group_" ++ md5Trunc8 module_name ∧
    md5Trunc8 module_name =
      String.mk ((md5HexChars (encodeStr module_name)).take 8) ∧
    (md5Trunc8 module_name).length = 8 ∧
    (md5Trunc8 module_name).data.all isLowerHexChar = true :=
  fun _ _ => ⟨rfl, rfl, md5Trunc8_length _, md5Trunc8_hex _, rfl, rfl,
    md5Trunc8_length _, md5Trunc8_hex _⟩

/-- C10: the pre-hash identity string of `generate_field_key` joins the
module and field identities with a single underscore and so is not
injective in the pair: the distinct pairs `("a_b", "c")` and
`("a", "b_c")` yield the same joined string and hence the exact same
field key. -/
theorem claim_C10_structural_collision :
    (("a_b", "c") : String × String) ≠ ("a", "b_c") ∧
    "a_b" ++ "_" ++ "c" = "a" ++ "_" ++ "b_c" ∧
    generate_field_key "a_b" "c" = generate_field_key "a" "b_c" :=
  ⟨by decide, by decide,
    congrArg (fun s => "field_" ++ md5Trunc8 s)
      (by decide : "a_b" ++ "_" ++ "c" = "a" ++ "_" ++ "b_c")⟩


/-! ## Lemmas about the normalizer -/

lemma slugChar_ne_dash (c : Char) (h : isSlugChar c = true) : c ≠ '-' := by
  intro h2
  subst h2
  exact absurd h (by decide)

lemma slugChar_ne_underscore (c : Char) (h : isSlugChar c = true) : c ≠ '_' := by
  intro h2
  subst h2
  exact absurd h (by decide)

lemma collapseGo_mem (l : List Char) : ∀ (b : Bool) (c : Char),
    c ∈ collapseGo l b → isSlugChar c = true ∨ c = '-' := by
  induction l with
  | nil => intro b c hc; simp [collapseGo] at hc
  | cons a t ih =>
    intro b c hc
    simp only [collapseGo] at hc
    split_ifs at hc with h1 h2
    · rcases List.mem_cons.1 hc with rfl | hc
      · exact Or.inl h1
      · exact ih _ _ hc
    · exact ih _ _ hc
    · rcases List.mem_cons.1 hc with rfl | hc
      · exact Or.inr rfl
      · exact ih _ _ hc

lemma collapseGo_true_head (l : List Char) : ∀ c : Char,
    (collapseGo l true).head? = some c → isSlugChar c = true := by
  induction l with
  | nil => intro c hc; simp [collapseGo] at hc
  | cons a t ih =>
    intro c hc
    simp only [collapseGo, if_true] at hc
    split_ifs at hc with h1
    · simp only [List.head?_cons, Option.some.injEq] at hc
      subst hc
      exact h1
    · exact ih c hc

lemma collapseGo_chain (l : List Char) : ∀ b : Bool,
    List.Chain' (fun x y => x ≠ '-' ∨ y ≠ '-') (collapseGo l b) := by
  induction l with
  | nil => intro b; simp [collapseGo]
  | cons a t ih =>
    intro b
    simp only [collapseGo]
    split_ifs with h1 h2
    · rw [List.chain'_cons']
      refine ⟨fun y _ => Or.inl (slugChar_ne_dash a h1), ih false⟩
    · exact ih true
    · rw [List.chain'_cons']
      refine ⟨fun y hy => Or.inr ?_, ih true⟩
      exact slugChar_ne_dash y (collapseGo_true_head t y (Option.mem_def.1 hy))

lemma head?_dropWhile_ne (c : Char) : ∀ (l : List Char) (x : Char),
    (l.dropWhile (fun y => y = c)).head? = some x → x ≠ c := by
  intro l
  induction l with
  | nil => intro x hx; simp at hx
  | cons a t ih =>
    intro x hx
    rw [List.dropWhile_cons] at hx
    split_ifs at hx with h
    · exact ih x hx
    · simp only [List.head?_cons, Option.some.injEq] at hx
      subst hx
      simpa using h

lemma pyStrip_subset (c : Char) (l : List Char) : ∀ x ∈ pyStrip c l, x ∈ l := by
  intro x hx
  rw [pyStrip, List.mem_reverse] at hx
  have h1 := (List.dropWhile_suffix _).subset hx
  rw [List.mem_reverse] at h1
  exact (List.dropWhile_suffix _).subset h1

lemma pyStrip_last (c : Char) (l : List Char) :
    ∀ x, (pyStrip c l).getLast? = some x → x ≠ c := by
  intro x hx
  rw [pyStrip, List.getLast?_reverse] at hx
  exact head?_dropWhile_ne c _ x hx

lemma pyStrip_head (c : Char) (l : List Char) :
    ∀ x, (pyStrip c l).head? = some x → x ≠ c := by
  intro x hx
  rw [pyStrip, List.head?_reverse] at hx
  have hne : ((l.dropWhile (fun y => y = c)).reverse.dropWhile (fun y => y = c)) ≠ [] := by
    intro h0
    rw [h0] at hx
    simp at hx
  obtain ⟨t, ht⟩ :=
    (List.dropWhile_suffix (fun y => y = c) :
      ((l.dropWhile (fun y => y = c)).reverse.dropWhile (fun y => y = c)) <:+
        (l.dropWhile (fun y => y = c)).reverse)
  have hlast : (l.dropWhile (fun y => y = c)).reverse.getLast? = some x := by
    rw [← ht, List.getLast?_append_of_ne_nil t hne]
    exact hx
  rw [List.getLast?_reverse] at hlast
  exact head?_dropWhile_ne c l x hlast

lemma pyStrip_chain (c : Char) (R : Char → Char → Prop) (l : List Char)
    (h : List.Chain' R l) : List.Chain' R (pyStrip c l) := by
  rw [pyStrip]
  apply List.chain'_reverse.mpr
  refine List.Chain'.suffix ?_ (List.dropWhile_suffix _)
  apply List.chain'_reverse.mpr
  exact List.Chain'.suffix h (List.dropWhile_suffix _)

/-! ## Claim theorems (normalizer) -/

/-- C6: for every input string, `slugify` returns only characters from
`[a-z0-9-]`, with no leading or trailing hyphen and no two consecutive
hyphens. -/
theorem claim_C6_slugify_shape : ∀ s : String,
    (slugify s).data.all (fun c => isSlugChar c || c == '-') = true ∧
    (slugify s).data.head? ≠ some '-' ∧
    (slugify s).data.getLast? ≠ some '-' ∧
    List.Chain' (fun x y => x ≠ '-' ∨ y ≠ '-') (slugify s).data := by
  intro s
  refine ⟨?_, ?_, ?_, ?_⟩
  · rw [List.all_eq_true]
    intro c hc
    rcases collapseGo_mem _ _ c
      (pyStrip_subset '-' (collapseGo ((s.data.map lower1).map foldAccent) false) c hc)
      with h | h
    · simp [h]
    · simp [h]
  · intro h
    exact pyStrip_head '-' (collapseGo ((s.data.map lower1).map foldAccent) false) '-' h rfl
  · intro h
    exact pyStrip_last '-' (collapseGo ((s.data.map lower1).map foldAccent) false) '-' h rfl
  · exact pyStrip_chain '-' _ (collapseGo ((s.data.map lower1).map foldAccent) false)
      (collapseGo_chain _ false)

/-- C7: `to_snake_case` is exactly `slugify` with every hyphen replaced by
an underscore, for every input string. -/
theorem claim_C7_snake_from_slug : ∀ x : String,
    to_snake_case x = pyReplaceChar '-' '_' (slugify x) :=
  fun _ => rfl

/-! ## Lemmas about snake-case names -/

lemma snake_data (t : String) :
    (to_snake_case t).data = (slugify t).data.map (fun c => if c = '-' then '_' else c) :=
  rfl

lemma slugify_mem (t : String) : ∀ c ∈ (slugify t).data, isSlugChar c = true ∨ c = '-' := by
  intro c hc
  exact collapseGo_mem _ _ c
    (pyStrip_subset '-' (collapseGo ((t.data.map lower1).map foldAccent) false) c hc)

lemma slugify_chain (t : String) :
    List.Chain' (fun x y => x ≠ '-' ∨ y ≠ '-') (slugify t).data :=
  pyStrip_chain '-' _ (collapseGo ((t.data.map lower1).map foldAccent) false)
    (collapseGo_chain _ false)

lemma to_snake_case_all (t : String) : (to_snake_case t).data.all isSnakeChar = true := by
  rw [List.all_eq_true]
  intro c hc
  rw [snake_data, List.mem_map] at hc
  obtain ⟨d, hd, rfl⟩ := hc
  by_cases hdd : d = '-'
  · simp [hdd, isSnakeChar]
  · rw [if_neg hdd]
    rcases slugify_mem t d hd with h | h
    · simp [isSnakeChar, h]
    · exact absurd h hdd

lemma to_snake_case_head (t : String) : (to_snake_case t).data.head? ≠ some '_' := by
  rw [snake_data, List.head?_map]
  intro h
  cases hh : (slugify t).data.head? with
  | none => rw [hh] at h; simp at h
  | some d =>
    rw [hh] at h
    simp only [Option.map_some', Option.some.injEq] at h
    have hd : d ≠ '-' :=
      pyStrip_head '-' (collapseGo ((t.data.map lower1).map foldAccent) false) d hh
    rw [if_neg hd] at h
    rcases slugify_mem t d (List.mem_of_mem_head? hh) with hs | hs
    · exact slugChar_ne_underscore d hs h
    · exact hd hs

lemma to_snake_case_getLast (t : String) : (to_snake_case t).data.getLast? ≠ some '_' := by
  rw [snake_data, List.getLast?_map]
  intro h
  cases hh : (slugify t).data.getLast? with
  | none => rw [hh] at h; simp at h
  | some d =>
    rw [hh] at h
    simp only [Option.map_some', Option.some.injEq] at h
    have hd : d ≠ '-' :=
      pyStrip_last '-' (collapseGo ((t.data.map lower1).map foldAccent) false) d hh
    rw [if_neg hd] at h
    rcases slugify_mem t d (List.mem_of_mem_getLast? hh) with hs | hs
    · exact slugChar_ne_underscore d hs h
    · exact hd hs

lemma chain_map_dashes : ∀ l : List Char,
    (∀ c ∈ l, isSlugChar c = true ∨ c = '-') →
    List.Chain' (fun x y => x ≠ '-' ∨ y ≠ '-') l →
    List.Chain' (fun x y => x ≠ '_' ∨ y ≠ '_')
      (l.map (fun c => if c = '-' then '_' else c)) := by
  intro l
  induction l with
  | nil => intro _ _; simp
  | cons a t ih =>
    intro hmem hch
    rw [List.map_cons, List.chain'_cons']
    constructor
    · intro y hy
      cases t with
      | nil => simp at hy
      | cons b t2 =>
        rw [List.map_cons, List.head?_cons, Option.mem_def] at hy
        injection hy with hy2
        subst hy2
        rcases (List.chain'_cons.1 hch).1 with ha | hb
        · left
          rcases hmem a (by simp) with hsa | hda
          · rw [if_neg ha]
            exact slugChar_ne_underscore a hsa
          · exact absurd hda ha
        · right
          rcases hmem b (by simp) with hsb | hdb
          · rw [if_neg hb]
            exact slugChar_ne_underscore b hsb
          · exact absurd hdb hb
    · exact ih (fun c hc => hmem c (List.mem_cons_of_mem a hc)) hch.tail

lemma to_snake_case_chain (t : String) :
    List.Chain' (fun x y => x ≠ '_' ∨ y ≠ '_') (to_snake_case t).data := by
  rw [snake_data]
  exact chain_map_dashes _ (slugify_mem t) (slugify_chain t)

/-! ## Lemmas about the parser -/

lemma parse_field_ok_iff (s : String) :
    (parse_field s).isOk = true ↔ (':' ∈ s.data ∧ rawType s ∈ supportedTypeKeys) := by
  unfold parse_field
  split_ifs with h1 h2
  all_goals simp_all [Except.isOk, Except.toBool]

lemma parse_field_ok_shape (s : String) (h1 : ':' ∈ s.data)
    (h2 : rawType s ∈ supportedTypeKeys) :
    parse_field s = .ok { name := to_snake_case (rawName s),
                          field_type := rawType s,
                          label := to_label (rawName s) } := by
  unfold parse_field
  rw [if_neg (not_not_intro h1), if_neg (not_not_intro h2)]

lemma parse_field_ok_inv (s : String) (F : Field) (h : parse_field s = .ok F) :
    F.name = to_snake_case (rawName s) ∧ F.field_type = rawType s ∧
      F.field_type ∈ supportedTypeKeys := by
  unfold parse_field at h
  split_ifs at h with h1 h2
  · injection h with h3
    subst h3
    exact ⟨rfl, rfl, h2⟩

/-! ## Claim theorems (parser) -/

/-- C3: `parse_field` fails exactly when the raw token has no colon or its
type portion is not a registry key; on the missing-separator path and the
unsupported-type path it returns the source's respective error messages,
and the unsupported-type message enumerates all registry keys, joined in
registry (insertion) order. -/
theorem claim_C3_parse_field_validation : ∀ s : String,
    ((parse_field s).isOk = true ↔ (':' ∈ s.data ∧ rawType s ∈ supportedTypeKeys)) ∧
    (':' ∉ s.data → parse_field s = .error (malformedMsg s)) ∧
    (':' ∈ s.data → rawType s ∉ supportedTypeKeys →
      parse_field s = .error (unsupportedMsg (rawType s))) ∧
    String.intercalate ", " supportedTypeKeys =
      "text, textarea, image, number, wysiwyg, select, date" := by
  intro s
  refine ⟨parse_field_ok_iff s, ?_, ?_, by decide⟩
  · intro h1
    unfold parse_field
    rw [if_pos h1]
  · intro h1 h2
    unfold parse_field
    rw [if_neg (not_not_intro h1), if_pos h2]

/-- C3 witness: the spec's own example, an unsupported type tag. -/
theorem claim_C3_witness :
    parse_field "prix-ttc:currency" = .error (unsupportedMsg (rawType "prix-ttc:currency")) :=
  (claim_C3_parse_field_validation "prix-ttc:currency").2.2.1 (by decide) (by decide)

/-- C4: on every accepted raw token the parser returns the Field whose
name is `to_snake_case` of the name portion, whose field_type is the type
portion unchanged and whose label is `to_label` of the name portion; in
particular `parse_field "Prix:number"` yields
`Field "prix" "number" "Prix"`. -/
theorem claim_C4_parse_field_success :
    (∀ s : String, ':' ∈ s.data → rawType s ∈ supportedTypeKeys →
      parse_field s = .ok { name := to_snake_case (rawName s),
                            field_type := rawType s,
                            label := to_label (rawName s) }) ∧
    parse_field "Prix:number" =
      .ok { name := "prix", field_type := "number", label := "Prix" } :=
  ⟨fun s h1 h2 => parse_field_ok_shape s h1 h2, rfl⟩

/-- C5 counterexample: the claim requires every parsed Field to have a
non-empty name, but the token ":text" parses successfully to a Field whose
name is the empty string. -/
theorem claim_C5_counterexample :
    ¬ (∀ (s : String) (F : Field), parse_field s = Except.ok F → F.name ≠ "") := by
  intro h
  exact h ":text" { name := "", field_type := "text", label := "" } rfl rfl

/-- C5 (amended): every Field produced by `parse_field` has a possibly
empty name drawn from `[a-z0-9_]` with no leading or trailing underscore
and no two consecutive underscores, and its field_type is always a key of
the registry. -/
theorem claim_C5_amended_field_invariant : ∀ (s : String) (F : Field),
    parse_field s = Except.ok F →
    F.name.data.all isSnakeChar = true ∧
    F.name.data.head? ≠ some '_' ∧
    F.name.data.getLast? ≠ some '_' ∧
    List.Chain' (fun x y => x ≠ '_' ∨ y ≠ '_') F.name.data ∧
    F.field_type ∈ supportedTypeKeys := by
  intro s F h
  obtain ⟨hn, hft, hmem⟩ := parse_field_ok_inv s F h
  rw [hn]
  exact ⟨to_snake_case_all _, to_snake_case_head _, to_snake_case_getLast _,
    to_snake_case_chain _, hmem⟩

/-- C5 witness: the amended invariant at the concrete token "Prix:number". -/
theorem claim_C5_witness :
    ("prix" : String).data.all isSnakeChar = true ∧
    ("prix" : String).data.head? ≠ some '_' ∧
    ("prix" : String).data.getLast? ≠ some '_' ∧
    List.Chain' (fun x y => x ≠ '_' ∨ y ≠ '_') ("prix" : String).data ∧
    ("number" : String) ∈ supportedTypeKeys :=
  claim_C5_amended_field_invariant "Prix:number"
    { name := "prix", field_type := "number", label := "Prix" } rfl

/-! ## Lemmas about the schema builder -/

lemma objKeys_build_acf_field (f : Field) (m : String) (i : Nat) :
    objKeys (build_acf_field f m i) = baseFieldKeys ++ acfExtraKeys f.field_type := by
  simp [build_acf_field, objKeys, objEntries, acfExtraKeys, baseFieldKeys]

lemma enumFrom_build_keys (m : String) : ∀ (fields : List Field) (i : Nat),
    ((List.enumFrom i fields).map (fun p => build_acf_field p.2 m p.1)).map objKeys =
      fields.map (fun f => baseFieldKeys ++ acfExtraKeys f.field_type) := by
  intro fields
  induction fields with
  | nil => intro i; simp
  | cons f t ih =>
    intro i
    simp only [List.enumFrom, List.map_cons]
    rw [ih]
    rw [objKeys_build_acf_field]

lemma removeKey_append_last (l : List (String × JVal)) (k : String) (v1 v2 : JVal) :
    removeKey k (l ++ [(k, v1)]) = removeKey k (l ++ [(k, v2)]) := by
  simp [removeKey, List.filter_append, List.filter_cons, bne_self_eq_false]

/-! ## Claim theorems (schema builder) -/

/-- C8: the schema document has exactly the fourteen listed top-level keys
in source order; its location rule scopes the group to content items whose
content-type equals the given slug; its fields array is the rendered field
entries in order, each carrying exactly the eight base keys plus the
type-specific extra attributes of the registry entry, from which the
registry's own `type` and `label` bookkeeping attributes are stripped. -/
theorem claim_C8_schema_shape :
    ∀ (module_name slug : String) (fields : List Field) (now : Int),
    (∀ f ∈ fields, f.field_type ∈ supportedTypeKeys) →
    (objKeys (build_acf_json module_name slug fields now) =
      [ "key", "title", "fields", "location", "menu_order", "position", "style",
        "label_placement", "instruction_placement", "hide_on_screen", "active",
        "description", "show_in_rest", "modified" ] ∧
    (objEntries (build_acf_json module_name slug fields now)).lookup "location" =
      some (.arr [ .arr [ .obj [ ("param", .s "post_type"), ("operator", .s "=="),
                                 ("value", .s slug) ] ] ]) ∧
    (objEntries (build_acf_json module_name slug fields now)).lookup "fields" =
      some (.arr (fields.enum.map (fun p => build_acf_field p.2 module_name p.1))) ∧
    (arrItems (((objEntries (build_acf_json module_name slug fields now)).lookup
        "fields").getD (.arr []))).map objKeys =
      fields.map (fun f => baseFieldKeys ++ acfExtraKeys f.field_type) ∧
    supportedTypeKeys.all
      (fun t => !(acfExtraKeys t).contains "type" &&
                !(acfExtraKeys t).contains "label") = true) := by
  intro m slug fields now hreg
  refine ⟨rfl, rfl, rfl, ?_, by decide⟩
  show ((List.enumFrom 0 fields).map (fun p => build_acf_field p.2 m p.1)).map objKeys = _
  exact enumFrom_build_keys m fields 0

/-- C8 witness: the schema shape at a concrete module with two fields. -/
theorem claim_C8_witness :
    objKeys (build_acf_json "Produit" "produit"
      [ { name := "titre", field_type := "text", label := "Titre" },
        { name := "photo", field_type := "image", label := "Photo" } ] 0) =
      [ "key", "title", "fields", "location", "menu_order", "position", "style",
        "label_placement", "instruction_placement", "hide_on_screen", "active",
        "description", "show_in_rest", "modified" ] ∧
    (objEntries (build_acf_json "Produit" "produit"
      [ { name := "titre", field_type := "text", label := "Titre" },
        { name := "photo", field_type := "image", label := "Photo" } ] 0)).lookup
        "location" =
      some (.arr [ .arr [ .obj [ ("param", .s "post_type"), ("operator", .s "=="),
                                 ("value", .s "produit") ] ] ]) ∧
    (objEntries (build_acf_json "Produit" "produit"
      [ { name := "titre", field_type := "text", label := "Titre" },
        { name := "photo", field_type := "image", label := "Photo" } ] 0)).lookup
        "fields" =
      some (.arr (([ { name := "titre", field_type := "text", label := "Titre" },
                     { name := "photo", field_type := "image", label := "Photo" }
                   ] : List Field).enum.map
        (fun p => build_acf_field p.2 "Produit" p.1))) ∧
    (arrItems (((objEntries (build_acf_json "Produit" "produit"
      [ { name := "titre", field_type := "text", label := "Titre" },
        { name := "photo", field_type := "image", label := "Photo" } ] 0)).lookup
        "fields").getD (.arr []))).map objKeys =
      ([ { name := "titre", field_type := "text", label := "Titre" },
         { name := "photo", field_type := "image", label := "Photo" }
       ] : List Field).map (fun f => baseFieldKeys ++ acfExtraKeys f.field_type) ∧
    supportedTypeKeys.all
      (fun t => !(acfExtraKeys t).contains "type" &&
                !(acfExtraKeys t).contains "label") = true :=
  claim_C8_schema_shape "Produit" "produit"
    [ { name := "titre", field_type := "text", label := "Titre" },
      { name := "photo", field_type := "image", label := "Photo" } ] 0 (by decide)

/-- C9: two runs of `build_acf_json` on identical inputs but different
clock readings agree on every entry of the document except the final
`modified` entry, which carries the clock reading and nothing else. -/
theorem claim_C9_only_modified_differs :
    ∀ (module_name slug : String) (fields : List Field) (n1 n2 : Int),
    removeKey "modified" (objEntries (build_acf_json module_name slug fields n1)) =
      removeKey "modified" (objEntries (build_acf_json module_name slug fields n2)) ∧
    (objEntries (build_acf_json module_name slug fields n1)).lookup "modified" =
      some (.n n1) ∧
    (objEntries (build_acf_json module_name slug fields n2)).lookup "modified" =
      some (.n n2) := by
  intro m slug fields n1 n2
  refine ⟨?_, rfl, rfl⟩
  exact removeKey_append_last
    [ ("key", .s (generate_group_key m)),
      ("title", .s ("Champs " ++ m)),
      ("fields", .arr (fields.enum.map (fun p => build_acf_field p.2 m p.1))),
      ("location", .arr [ .arr [ .obj [ ("param", .s "post_type"),
                                        ("operator", .s "=="),
                                        ("value", .s slug) ] ] ]),
      ("menu_order", .n 0),
      ("position", .s "normal"),
      ("style", .s "default"),
      ("label_placement", .s "top"),
      ("instruction_placement", .s "label"),
      ("hide_on_screen", .s ""),
      ("active", .b true),
      ("description", .s ("Groupe de champs pour le module " ++ m)),
      ("show_in_rest", .n 1) ]
    "modified" (.n n1) (.n n2)

end WpGen
